import Mathlib

/-!
Shallow embedding of the platformer game simulation core
(player kinematics, platform/enemy/coin entities, collision
resolution and the game state machine), together with theorems
about its specified behaviour.

Positions, velocities and accelerations of the player are pygame
float vectors, modelled here as exact rationals; every rectangle
coordinate is an integer, as in pygame.  Sprite groups preserve
insertion order and are modelled as lists.
-/

namespace PG

/-! ### Constants -/

def SCREEN_WIDTH : Int := 800
def SCREEN_HEIGHT : Int := 600

def PLAYER_ACC : ℚ := 1/2
def PLAYER_FRICTION : ℚ := -(12/100)
def PLAYER_GRAVITY : ℚ := 4/5
def PLAYER_JUMP : ℚ := -16

def MENU : Nat := 0
def PLAYING : Nat := 1
def GAME_OVER : Nat := 2
def WIN : Nat := 3

/-! ### Geometry -/

structure Vec2 where
  x : ℚ
  y : ℚ
  deriving DecidableEq, Repr

structure Rect where
  x : Int
  y : Int
  w : Int
  h : Int
  deriving DecidableEq, Repr

def Rect.top (r : Rect) : Int := r.y

def Rect.bottom (r : Rect) : Int := r.y + r.h

def Rect.centery (r : Rect) : Int := r.y + r.h / 2

/-- pygame rect overlap test: strict on all four sides. -/
def Rect.collide (a b : Rect) : Bool :=
  decide (a.x < b.x + b.w) && decide (a.y < b.y + b.h) &&
  decide (b.x < a.x + a.w) && decide (b.y < a.y + a.h)

/-- Python float-to-int conversion: truncation toward zero. -/
def ratTrunc (q : ℚ) : Int := q.num.tdiv q.den

/-! ### Input snapshot -/

structure Keys where
  left : Bool
  right : Bool
  deriving DecidableEq, Repr

def keysNone : Keys := ⟨false, false⟩

/-! ### Player -/

structure Player where
  pos : Vec2
  vel : Vec2
  acc : Vec2
  rect : Rect
  facing_right : Bool
  jumping : Bool
  on_ground : Bool
  lives : Int
  deriving DecidableEq, Repr

/-- Player.__init__: 30x40 rect centered on screen, start position
(100, SCREEN_HEIGHT - 200), three lives. -/
def initialPlayer : Player :=
  { pos := ⟨100, (SCREEN_HEIGHT : ℚ) - 200⟩
    vel := ⟨0, 0⟩
    acc := ⟨0, 0⟩
    rect := ⟨SCREEN_WIDTH / 2 - 15, SCREEN_HEIGHT / 2 - 20, 30, 40⟩
    facing_right := true
    jumping := false
    on_ground := false
    lives := 3 }

/-- The equations-of-motion part of Player.update: reset acceleration to
gravity, apply held-key input (left then right), linear friction, integrate
velocity, snap small horizontal velocity to zero, integrate position. -/
def Player.integrate (p : Player) (keys : Keys) : Player :=
  let a0 : Vec2 := ⟨0, PLAYER_GRAVITY⟩
  let a1 : Vec2 := if keys.left then ⟨-PLAYER_ACC, a0.y⟩ else a0
  let f1 : Bool := if keys.left then false else p.facing_right
  let a2 : Vec2 := if keys.right then ⟨PLAYER_ACC, a1.y⟩ else a1
  let f2 : Bool := if keys.right then true else f1
  let a3 : Vec2 := ⟨a2.x + p.vel.x * PLAYER_FRICTION, a2.y⟩
  let v1 : Vec2 := ⟨p.vel.x + a3.x, p.vel.y + a3.y⟩
  let v2 : Vec2 := if |v1.x| < 1/10 then ⟨0, v1.y⟩ else v1
  let pos : Vec2 := ⟨p.pos.x + v2.x + a3.x / 2, p.pos.y + v2.y + a3.y / 2⟩
  { p with acc := a3, vel := v2, pos := pos, facing_right := f2 }

/-- Horizontal screen wrap in Player.update. -/
def wrapX (x : ℚ) : ℚ :=
  let x1 := if (SCREEN_WIDTH : ℚ) < x then 0 else x
  if x1 < 0 then (SCREEN_WIDTH : ℚ) else x1

/-- Player.update without the fall-off-screen death check: integrate,
wrap horizontally, place the rect with its midbottom at the position. -/
def Player.move (p : Player) (keys : Keys) : Player :=
  let p1 := p.integrate keys
  let p2 := { p1 with pos := ⟨wrapX p1.pos.x, p1.pos.y⟩ }
  { p2 with rect := ⟨ratTrunc p2.pos.x - p2.rect.w / 2,
                     ratTrunc p2.pos.y - p2.rect.h, p2.rect.w, p2.rect.h⟩ }

/-! ### World entities -/

structure Platform where
  rect : Rect
  is_moving : Bool
  move_range : Int
  move_speed : Int
  start_pos : Int
  direction : Int
  deriving DecidableEq, Repr

def mkStatic (x y w h : Int) : Platform :=
  ⟨⟨x, y, w, h⟩, false, 0, 0, x, 1⟩

def mkMoving (x y w h range speed : Int) : Platform :=
  ⟨⟨x, y, w, h⟩, true, range, speed, x, 1⟩

/-- Platform.update: only a moving platform advances; it first steps by
speed * direction, then reverses direction if it has left the range. -/
def Platform.update (p : Platform) : Platform :=
  if p.is_moving then
    let x1 := p.rect.x + p.move_speed * p.direction
    { p with rect := ⟨x1, p.rect.y, p.rect.w, p.rect.h⟩
             direction := if p.move_range < |x1 - p.start_pos| then -p.direction
                          else p.direction }
  else p

structure Enemy where
  rect : Rect
  patrol_range : Int
  speed : Int
  start_pos : Int
  direction : Int
  deriving DecidableEq, Repr

def mkEnemy (x y range : Int) : Enemy :=
  ⟨⟨x, y, 30, 30⟩, range, 1, x, 1⟩

/-- Enemy.update: identical oscillation, unconditional. -/
def Enemy.update (e : Enemy) : Enemy :=
  let x1 := e.rect.x + e.speed * e.direction
  { e with rect := ⟨x1, e.rect.y, e.rect.w, e.rect.h⟩
           direction := if e.patrol_range < |x1 - e.start_pos| then -e.direction
                        else e.direction }

structure Coin where
  rect : Rect
  deriving DecidableEq, Repr

def mkCoin (x y : Int) : Coin := ⟨⟨x, y, 15, 15⟩⟩

/-! ### Ground probe and jump -/

def groundProbe (p : Player) (plats : List Platform) : Bool :=
  !((plats.filter fun pl =>
      (Rect.collide ⟨p.rect.x, p.rect.y + 1, p.rect.w, p.rect.h⟩ pl.rect)).isEmpty)

/-- Player.jump: probe one unit below the footprint; jump only if the probe
hits a platform and the player is not already jumping. -/
def Player.jump (p : Player) (plats : List Platform) : Player :=
  if groundProbe p plats && !p.jumping then
    { p with jumping := true, vel := ⟨p.vel.x, PLAYER_JUMP⟩ }
  else p

/-! ### Game session -/

structure Game where
  game_state : Nat
  score : Int
  level : Int
  player : Player
  platforms : List Platform
  enemies : List Enemy
  coins : List Coin
  deriving DecidableEq, Repr

/-- Game.player_die: death sound (pure side effect, not modelled),
decrement lives; game over at zero lives, else soft respawn. -/
def Game.playerDie (g : Game) : Game :=
  let lives := g.player.lives - 1
  if lives ≤ 0 then
    { g with player := { g.player with lives := lives }, game_state := GAME_OVER }
  else
    { g with player :=
        { g.player with
            lives := lives
            pos := ⟨100, (SCREEN_HEIGHT : ℚ) - 200⟩
            vel := ⟨0, 0⟩ } }

/-- Player.update including the fell-off-screen death check. -/
def Game.playerUpdate (g : Game) (keys : Keys) : Game :=
  let p := g.player.move keys
  let g1 := { g with player := p }
  if SCREEN_HEIGHT < p.rect.top then g1.playerDie else g1

/-- all_sprites.update(): player first, then platforms and enemies
(coins have no update behaviour). -/
def Game.spritesUpdate (g : Game) (keys : Keys) : Game :=
  let g1 := g.playerUpdate keys
  { g1 with platforms := g1.platforms.map Platform.update
            enemies := g1.enemies.map Enemy.update }

/-- The loop selecting the overlapping platform with the greatest bottom
edge, starting from the first hit, with a strict comparison. -/
def selectLowest (a : Platform) (l : List Platform) : Platform :=
  l.foldl (fun lowest hit =>
    if lowest.rect.bottom < hit.rect.bottom then hit else lowest) a

/-- Landing resolution in Game.update: only while falling; pick the lowest
overlapping platform; if the player's position is above its vertical
center, snap feet to one unit below its top, zero vertical velocity and
clear the jumping flag. -/
def Game.landingStep (g : Game) : Game :=
  if 0 < g.player.vel.y then
    match g.platforms.filter (fun pl => g.player.rect.collide pl.rect) with
    | [] => g
    | h :: t =>
        let lowest := selectLowest h (h :: t)
        if g.player.pos.y < (lowest.rect.centery : ℚ) then
          { g with player := { g.player with
              pos := ⟨g.player.pos.x, (lowest.rect.top : ℚ) + 1⟩
              vel := ⟨g.player.vel.x, 0⟩
              jumping := false } }
        else g
  else g

/-- Body of the per-collected-coin loop: score reward, coin sound (not
modelled), and the win check against the already-reduced coin group. -/
def coinBody (g : Game) (_c : Coin) : Game :=
  { g with score := g.score + 10
           game_state := if g.coins.length = 0 then WIN else g.game_state }

/-- Coin collisions: overlapping coins are removed (spritecollide with
dokill), then the loop body runs once per removed coin. -/
def Game.coinStep (g : Game) : Game :=
  let hits := g.coins.filter (fun c => g.player.rect.collide c.rect)
  let g1 := { g with coins := g.coins.filter (fun c => !(g.player.rect.collide c.rect)) }
  hits.foldl coinBody g1

/-- Enemy collisions: any overlap triggers the death procedure once. -/
def Game.enemyStep (g : Game) : Game :=
  if g.enemies.any (fun e => g.player.rect.collide e.rect) then g.playerDie else g

/-- Game.update: one simulation tick while in the playing state. -/
def Game.update (g : Game) (keys : Keys) : Game :=
  (((g.spritesUpdate keys).landingStep).coinStep).enemyStep

/-- One pass of the main loop's simulation part: Game.update runs only in
the playing state. -/
def Game.step (g : Game) (keys : Keys) : Game :=
  if g.game_state = PLAYING then g.update keys else g

def Game.run (g : Game) (ks : List Keys) : Game :=
  ks.foldl Game.step g

/-! ### Level builder -/

def ground : Platform := mkStatic 0 (SCREEN_HEIGHT - 40) SCREEN_WIDTH 40

/-- create_level: the ground is added first, then the literal layout table
(whose first entry is the ground again). -/
def createLevelPlatforms (level : Int) : List Platform :=
  ground ::
    (if level = 1 then
      [mkStatic 0 (SCREEN_HEIGHT - 40) SCREEN_WIDTH 40,
       mkStatic 100 400 150 20,
       mkStatic 300 300 100 20,
       mkStatic 500 200 150 20,
       mkStatic 250 120 100 20,
       mkMoving 650 350 100 20 100 1]
    else
      [mkStatic 0 (SCREEN_HEIGHT - 40) SCREEN_WIDTH 40,
       mkStatic 100 450 100 20,
       mkStatic 300 350 100 20,
       mkStatic 500 250 100 20,
       mkStatic 200 150 100 20,
       mkStatic 400 100 100 20,
       mkStatic 600 150 100 20,
       mkMoving 100 250 100 20 150 2])

def createLevelEnemies (level : Int) : List Enemy :=
  if level = 1 then
    [mkEnemy 300 280 80, mkEnemy 500 180 100]
  else
    [mkEnemy 300 330 80, mkEnemy 500 230 80, mkEnemy 200 130 80, mkEnemy 600 130 80]

def createLevelCoins (level : Int) : List Coin :=
  if level = 1 then
    [mkCoin 130 370, mkCoin 330 270, mkCoin 530 170, mkCoin 280 90, mkCoin 680 320]
  else
    [mkCoin 130 420, mkCoin 330 320, mkCoin 530 220, mkCoin 230 120,
     mkCoin 430 70, mkCoin 630 120, mkCoin 130 220]

/-- Game.new_game: fresh score, playing state, fresh player and level. -/
def Game.newGame (g : Game) : Game :=
  { g with score := 0
           game_state := PLAYING
           player := initialPlayer
           platforms := createLevelPlatforms g.level
           enemies := createLevelEnemies g.level
           coins := createLevelCoins g.level }

/-! ### Oscillation invariant (platforms and enemies) -/

/-- Inductive invariant of the shared oscillation rule with origin x0,
range r, speed s: the coordinate stays within the range extended by one
step, and once outside the strict range the direction points back. -/
def OscInv (x0 r s x d : Int) : Prop :=
  (d = 1 ∨ d = -1) ∧ |x - x0| ≤ r + s ∧
  (r < x - x0 → d = -1) ∧ (r < x0 - x → d = 1)

def PlatInv (p : Platform) : Prop :=
  OscInv p.start_pos p.move_range p.move_speed p.rect.x p.direction

def EnemyInv (e : Enemy) : Prop :=
  OscInv e.start_pos e.patrol_range e.speed e.rect.x e.direction

/-- Number of direction reversals over the first n updates of a platform. -/
def flipCount : Nat → Platform → Nat
  | 0, _ => 0
  | n + 1, p => (if p.update.direction = p.direction then 0 else 1) + flipCount n p.update

/-- The level-1 moving platform: origin 650, range 100, speed 1. -/
def movingPlat1 : Platform := mkMoving 650 350 100 20 100 1

/-! ### Concrete states used in witnesses and counterexamples -/

/-- Gravity-only trajectory of the fresh player, no keys held. -/
def fallIter (n : Nat) : Player := (fun q => q.integrate keysNone)^[n] initialPlayer

def plat1 : Platform := mkStatic 100 400 150 20

def pL : Player :=
  { pos := ⟨130, 405⟩, vel := ⟨0, 5⟩, acc := ⟨0, 0⟩, rect := ⟨115, 365, 30, 40⟩,
    facing_right := true, jumping := true, on_ground := false, lives := 3 }

def gL : Game :=
  { game_state := PLAYING, score := 0, level := 1, player := pL,
    platforms := [plat1], enemies := [], coins := [] }

def pJ : Player :=
  { pos := ⟨100, 560⟩, vel := ⟨0, 0⟩, acc := ⟨0, 0⟩, rect := ⟨85, 520, 30, 40⟩,
    facing_right := true, jumping := false, on_ground := false, lives := 3 }

def pC3 : Player :=
  { pos := ⟨330, 280⟩, vel := ⟨0, 19/5⟩, acc := ⟨0, 0⟩, rect := ⟨315, 240, 30, 40⟩,
    facing_right := true, jumping := false, on_ground := false, lives := 1 }

def enemyC3 : Enemy := ⟨⟨320, 250, 30, 30⟩, 80, 1, 320, 1⟩

def coinC3 : Coin := ⟨⟨320, 250, 15, 15⟩⟩

/-- A playing state with one life, one remaining coin and an enemy both
overlapping the player's next rect position. -/
def gC3 : Game :=
  { game_state := PLAYING, score := 0, level := 1, player := pC3,
    platforms := [ground], enemies := [enemyC3], coins := [coinC3] }

/-- pC3 after one motion update with no keys held. -/
def pMoved : Player :=
  { pos := ⟨330, 285⟩, vel := ⟨0, 23/5⟩, acc := ⟨0, 4/5⟩, rect := ⟨315, 245, 30, 40⟩,
    facing_right := true, jumping := false, on_ground := false, lives := 1 }

/-- The enemy of gC3 after one patrol step. -/
def enemyC3m : Enemy := ⟨⟨321, 250, 30, 30⟩, 80, 1, 320, 1⟩

/-- gC3 after the sprite-update phase of the tick. -/
def gMoved : Game :=
  { game_state := PLAYING, score := 0, level := 1, player := pMoved,
    platforms := [ground], enemies := [enemyC3m], coins := [coinC3] }

/-- gMoved after coin collection: the last coin is consumed, the score
rises by 10 and the state flips to WIN. -/
def gCoined : Game :=
  { game_state := WIN, score := 10, level := 1, player := pMoved,
    platforms := [ground], enemies := [enemyC3m], coins := [] }

/-- gCoined after the enemy collision check: the overlapping enemy kills
the player's last life, overwriting WIN with GAME_OVER. -/
def gFinal : Game :=
  { game_state := GAME_OVER, score := 10, level := 1,
    player := { pMoved with lives := 0 },
    platforms := [ground], enemies := [enemyC3m], coins := [] }

/-! ### Helper lemmas: the oscillation rule -/

lemma osc_step {x0 r s x d : Int} (hs : 0 ≤ s) (_hr : 0 ≤ r) (h : OscInv x0 r s x d) :
    OscInv x0 r s (x + s * d) (if r < |x + s * d - x0| then -d else d) := by
  obtain ⟨hd, hb, hp, hn⟩ := h
  rw [abs_le] at hb
  have hp' : x - x0 ≤ r ∨ d = -1 := by
    rcases lt_or_le r (x - x0) with h1 | h1
    · exact Or.inr (hp h1)
    · exact Or.inl h1
  have hn' : x0 - x ≤ r ∨ d = 1 := by
    rcases lt_or_le r (x0 - x) with h1 | h1
    · exact Or.inr (hn h1)
    · exact Or.inl h1
  by_cases hc : r < |x + s * d - x0|
  · rw [if_pos hc]
    rw [lt_abs] at hc
    rcases hd with hd | hd <;> subst hd <;>
      exact ⟨by omega, by rw [abs_le]; omega, fun h2 => by omega, fun h2 => by omega⟩
  · rw [if_neg hc]
    rw [not_lt, abs_le] at hc
    rcases hd with hd | hd <;> subst hd <;>
      exact ⟨by omega, by rw [abs_le]; omega, fun h2 => by omega, fun h2 => by omega⟩

lemma platformUpdate_inv (p : Platform) (hs : 0 ≤ p.move_speed)
    (hr : 0 ≤ p.move_range) (h : PlatInv p) : PlatInv p.update := by
  unfold Platform.update
  split
  · exact osc_step hs hr h
  · exact h

lemma enemyUpdate_inv (e : Enemy) (hs : 0 ≤ e.speed)
    (hr : 0 ≤ e.patrol_range) (h : EnemyInv e) : EnemyInv e.update :=
  osc_step hs hr h

lemma platformUpdate_frame (p : Platform) :
    p.update.start_pos = p.start_pos ∧ p.update.move_range = p.move_range ∧
    p.update.move_speed = p.move_speed ∧ p.update.is_moving = p.is_moving ∧
    p.update.rect.y = p.rect.y ∧ p.update.rect.w = p.rect.w ∧
    p.update.rect.h = p.rect.h := by
  unfold Platform.update
  split <;> exact ⟨rfl, rfl, rfl, rfl, rfl, rfl, rfl⟩

lemma enemyUpdate_frame (e : Enemy) :
    e.update.start_pos = e.start_pos ∧ e.update.patrol_range = e.patrol_range ∧
    e.update.speed = e.speed ∧ e.update.rect.y = e.rect.y ∧
    e.update.rect.w = e.rect.w ∧ e.update.rect.h = e.rect.h :=
  ⟨rfl, rfl, rfl, rfl, rfl, rfl⟩

/-! ### C4 -/

set_option maxRecDepth 10000 in
/-- C4 (counterexample): for the level-1 moving platform (origin 650,
range 100, speed 1), after 101 unobstructed updates the x coordinate is
751, which violates the claimed invariant x ∈ [origin − range,
origin + range] and the claimed scenario bound x ∈ [550, 750]. -/
theorem C4_counterexample :
    (Platform.update^[101] movingPlat1).rect.x = 751 ∧
    ¬ |(Platform.update^[101] movingPlat1).rect.x - movingPlat1.start_pos| ≤
        movingPlat1.move_range ∧
    ¬ (Platform.update^[101] movingPlat1).rect.x ≤ 750 := by
  decide

set_option maxRecDepth 10000 in
/-- C4 (amended): for every moving platform and every enemy with
nonnegative range and speed, each update preserves the oscillation
invariant, so the x coordinate stays within [origin − range − speed,
origin + range + speed] (the code moves first and only then reverses
direction, so it can overshoot the range by up to one step); the
direction negates exactly when, after the move, |x − origin| strictly
exceeds the range; concretely, after 101 unobstructed updates of the
level-1 moving platform the direction has flipped exactly once and the x
coordinate 751 lies within the corrected bound [549, 751]. -/
theorem C4_oscillation_bounds :
    (∀ p : Platform, 0 ≤ p.move_speed → 0 ≤ p.move_range → PlatInv p →
        PlatInv p.update ∧
        |p.update.rect.x - p.start_pos| ≤ p.move_range + p.move_speed) ∧
    (∀ e : Enemy, 0 ≤ e.speed → 0 ≤ e.patrol_range → EnemyInv e →
        EnemyInv e.update ∧
        |e.update.rect.x - e.start_pos| ≤ e.patrol_range + e.speed) ∧
    (∀ p : Platform, p.is_moving = true →
        p.update.direction =
          (if p.move_range < |p.rect.x + p.move_speed * p.direction - p.start_pos|
           then -p.direction else p.direction)) ∧
    (∀ e : Enemy,
        e.update.direction =
          (if e.patrol_range < |e.rect.x + e.speed * e.direction - e.start_pos|
           then -e.direction else e.direction)) ∧
    ((Platform.update^[101] movingPlat1).rect.x = 751 ∧
     flipCount 101 movingPlat1 = 1 ∧
     |(Platform.update^[101] movingPlat1).rect.x - movingPlat1.start_pos| ≤
       movingPlat1.move_range + movingPlat1.move_speed) := by
  refine ⟨?_, ?_, ?_, ?_, by decide⟩
  · intro p hs hr h
    have h1 := platformUpdate_inv p hs hr h
    have hf := platformUpdate_frame p
    refine ⟨h1, ?_⟩
    rw [← hf.1, ← hf.2.1, ← hf.2.2.1]
    exact h1.2.1
  · intro e hs hr h
    have h1 := enemyUpdate_inv e hs hr h
    have hf := enemyUpdate_frame e
    refine ⟨h1, ?_⟩
    rw [← hf.1, ← hf.2.1, ← hf.2.2.1]
    exact h1.2.1
  · intro p hm
    unfold Platform.update
    rw [if_pos hm]
  · intro e
    rfl

/-- C4 (witness): the preservation theorem applied to the level-1 moving
platform in its initial state. -/
theorem C4_witness :
    0 ≤ movingPlat1.move_speed ∧ 0 ≤ movingPlat1.move_range ∧
    PlatInv movingPlat1 ∧ PlatInv movingPlat1.update ∧
    |movingPlat1.update.rect.x - movingPlat1.start_pos| ≤
      movingPlat1.move_range + movingPlat1.move_speed := by
  have hInv : PlatInv movingPlat1 :=
    ⟨Or.inl rfl, by decide, fun h => absurd h (by decide), fun h => absurd h (by decide)⟩
  have h1 := C4_oscillation_bounds.1 movingPlat1 (by decide) (by decide) hInv
  exact ⟨by decide, by decide, hInv, h1.1, h1.2⟩

/-! ### C5 -/

/-- C5 (counterexample): the wrap uses strict comparisons, so a position
of exactly SCREEN_WIDTH stays at SCREEN_WIDTH (it is not mapped to 0) and
a position of exactly 0 stays at 0 (it is not mapped to SCREEN_WIDTH). -/
theorem C5_counterexample :
    wrapX ((SCREEN_WIDTH : Int) : ℚ) ≠ 0 ∧ wrapX 0 ≠ ((SCREEN_WIDTH : Int) : ℚ) := by
  decide

/-- C5 (amended): the horizontal wrap maps positions strictly greater
than SCREEN_WIDTH to 0 and positions strictly less than 0 to
SCREEN_WIDTH; positions already in [0, SCREEN_WIDTH] (including both
boundary values) are fixed points; after the wrap step the x position
always lies within [0, SCREEN_WIDTH], and wrapping is idempotent, so
repeated application never diverges. -/
theorem C5_wrap_behaviour (x : ℚ) :
    ((SCREEN_WIDTH : ℚ) < x → wrapX x = 0) ∧
    (x < 0 → wrapX x = (SCREEN_WIDTH : ℚ)) ∧
    (0 ≤ x → x ≤ (SCREEN_WIDTH : ℚ) → wrapX x = x) ∧
    0 ≤ wrapX x ∧ wrapX x ≤ (SCREEN_WIDTH : ℚ) ∧
    wrapX (wrapX x) = wrapX x := by
  have hsw : (0 : ℚ) ≤ (SCREEN_WIDTH : ℚ) := by norm_num [SCREEN_WIDTH]
  refine ⟨?_, ?_, ?_, ?_, ?_, ?_⟩
  · intro h
    simp only [wrapX]
    rw [if_pos h]
    norm_num
  · intro h
    simp only [wrapX]
    rw [if_neg (not_lt.mpr (le_trans (le_of_lt h) hsw)), if_pos h]
  · intro h1 h2
    simp only [wrapX]
    rw [if_neg (not_lt.mpr h2), if_neg (not_lt.mpr h1)]
  · simp only [wrapX]
    split_ifs <;> linarith
  · simp only [wrapX]
    split_ifs <;> linarith
  · simp only [wrapX]
    split_ifs <;> linarith

/-- C5 (witness): the wrap theorem applied at 900 (beyond the right edge)
and −3 (beyond the left edge). -/
theorem C5_wrap_witness :
    (SCREEN_WIDTH : ℚ) < 900 ∧ wrapX 900 = 0 ∧
    (-3 : ℚ) < 0 ∧ wrapX (-3) = (SCREEN_WIDTH : ℚ) :=
  ⟨by decide, (C5_wrap_behaviour 900).1 (by decide),
   by decide, (C5_wrap_behaviour (-3)).2.1 (by decide)⟩

/-! ### C6 -/

/-- C6: a jump request changes the player's state iff the jumping flag is
false and the one-unit-down probe of the bounding box overlaps at least
one platform; when both hold it sets jumping to true and the vertical
velocity to the jump impulse constant, and otherwise it is a silent no-op
leaving the entire player state unchanged. -/
theorem C6_jump_contract (p : Player) (plats : List Platform) :
    (p.jump plats ≠ p ↔ (p.jumping = false ∧ groundProbe p plats = true)) ∧
    (p.jumping = false → groundProbe p plats = true →
      p.jump plats = { p with jumping := true, vel := ⟨p.vel.x, PLAYER_JUMP⟩ }) ∧
    (p.jumping = true → p.jump plats = p) ∧
    (groundProbe p plats = false → p.jump plats = p) := by
  obtain ⟨pos, vel, acc, rect, fr, j, og, lv⟩ := p
  unfold Player.jump
  cases j <;>
    cases hg : groundProbe ⟨pos, vel, acc, rect, fr, false, og, lv⟩ plats <;>
    cases hg2 : groundProbe ⟨pos, vel, acc, rect, fr, true, og, lv⟩ plats <;>
    simp_all [Player.mk.injEq]

/-- C6 (witness): the jump contract applied to a non-jumping player
standing on the ground platform: the jump fires. -/
theorem C6_jump_witness :
    pJ.jumping = false ∧ groundProbe pJ [ground] = true ∧
    pJ.jump [ground] = { pJ with jumping := true, vel := ⟨pJ.vel.x, PLAYER_JUMP⟩ } :=
  ⟨rfl, by decide, (C6_jump_contract pJ [ground]).2.1 rfl (by decide)⟩

/-! ### Helper lemmas: gravity-only trajectory -/

lemma fallIter_succ (n : ℕ) : fallIter (n + 1) = (fallIter n).integrate keysNone := by
  unfold fallIter
  exact Function.iterate_succ_apply' _ n _

lemma integrate_none_vel_y (p : Player) :
    (p.integrate keysNone).vel.y = p.vel.y + PLAYER_GRAVITY := by
  show (if |p.vel.x + (0 + p.vel.x * PLAYER_FRICTION)| < 1/10
        then (⟨0, p.vel.y + PLAYER_GRAVITY⟩ : Vec2)
        else ⟨p.vel.x + (0 + p.vel.x * PLAYER_FRICTION), p.vel.y + PLAYER_GRAVITY⟩).y
      = p.vel.y + PLAYER_GRAVITY
  split <;> rfl

lemma integrate_none_pos_y (p : Player) :
    (p.integrate keysNone).pos.y =
      p.pos.y + (p.vel.y + PLAYER_GRAVITY) + PLAYER_GRAVITY / 2 := by
  show p.pos.y +
        (if |p.vel.x + (0 + p.vel.x * PLAYER_FRICTION)| < 1/10
         then (⟨0, p.vel.y + PLAYER_GRAVITY⟩ : Vec2)
         else ⟨p.vel.x + (0 + p.vel.x * PLAYER_FRICTION), p.vel.y + PLAYER_GRAVITY⟩).y
        + PLAYER_GRAVITY / 2
      = p.pos.y + (p.vel.y + PLAYER_GRAVITY) + PLAYER_GRAVITY / 2
  split <;> rfl

lemma fallIter_vel_y_nonneg (n : ℕ) : 0 ≤ (fallIter n).vel.y := by
  induction n with
  | zero => simp [fallIter, initialPlayer]
  | succ n ih =>
      rw [fallIter_succ, integrate_none_vel_y]
      have hg : (0 : ℚ) < PLAYER_GRAVITY := by norm_num [PLAYER_GRAVITY]
      linarith

/-! ### C7 -/

/-- C7: one tick of the player motion update computes acceleration
(0, gravity), overridden horizontally by held keys with right taking
precedence, plus the friction term vel.x * friction; velocity adds the
acceleration, small horizontal velocities snap to exactly 0, and position
adds velocity + acceleration/2 — the post-update acceleration, velocity
and position equal these closed forms for every starting state and every
held-key input; in the gravity-only scenario from rest both the vertical
velocity and the vertical position are strictly increasing over 10 ticks,
and the ground probe fails with no platforms beneath. -/
theorem C7_motion_equations :
    (∀ (p : Player) (keys : Keys),
      (p.integrate keys).acc =
        ⟨(if keys.right then PLAYER_ACC else if keys.left then -PLAYER_ACC else 0)
            + p.vel.x * PLAYER_FRICTION, PLAYER_GRAVITY⟩ ∧
      (p.integrate keys).vel =
        (if |p.vel.x + ((if keys.right then PLAYER_ACC
              else if keys.left then -PLAYER_ACC else 0)
              + p.vel.x * PLAYER_FRICTION)| < 1/10
         then (⟨0, p.vel.y + PLAYER_GRAVITY⟩ : Vec2)
         else ⟨p.vel.x + ((if keys.right then PLAYER_ACC
              else if keys.left then -PLAYER_ACC else 0)
              + p.vel.x * PLAYER_FRICTION),
              p.vel.y + PLAYER_GRAVITY⟩) ∧
      (p.integrate keys).pos =
        ⟨p.pos.x + (p.integrate keys).vel.x + (p.integrate keys).acc.x / 2,
         p.pos.y + (p.integrate keys).vel.y + (p.integrate keys).acc.y / 2⟩) ∧
    (∀ n : ℕ,
      (fallIter (n + 1)).vel.y > (fallIter n).vel.y ∧
      (fallIter (n + 1)).pos.y > (fallIter n).pos.y) ∧
    PLAYER_GRAVITY = 4/5 ∧ groundProbe initialPlayer [] = false := by
  have hg : (0 : ℚ) < PLAYER_GRAVITY := by norm_num [PLAYER_GRAVITY]
  refine ⟨?_, ?_, rfl, rfl⟩
  · intro p keys
    obtain ⟨l, r⟩ := keys
    cases l <;> cases r <;> exact ⟨rfl, rfl, rfl⟩
  · intro n
    constructor
    · rw [fallIter_succ, integrate_none_vel_y]
      linarith
    · rw [fallIter_succ, integrate_none_pos_y]
      have hv := fallIter_vel_y_nonneg n
      linarith

/-! ### C9 -/

/-- C9: when the death procedure runs with the decremented lives counter
still above zero, the player respawns at the fixed start position
(100, SCREEN_HEIGHT − 200) = (100, 400) with zero velocity, while score,
coins, enemies, platforms and the game state are all unchanged. -/
theorem C9_soft_reset (g : Game) (h : 0 < g.player.lives - 1) :
    g.playerDie = { g with player :=
        { g.player with
            lives := g.player.lives - 1
            pos := ⟨100, (SCREEN_HEIGHT : ℚ) - 200⟩
            vel := ⟨0, 0⟩ } } ∧
    (g.playerDie).score = g.score ∧ (g.playerDie).coins = g.coins ∧
    (g.playerDie).enemies = g.enemies ∧ (g.playerDie).platforms = g.platforms ∧
    (g.playerDie).game_state = g.game_state ∧
    (g.playerDie).player.pos = ⟨100, 400⟩ ∧ (g.playerDie).player.vel = ⟨0, 0⟩ := by
  unfold Game.playerDie
  rw [if_neg (by omega : ¬ g.player.lives - 1 ≤ 0)]
  refine ⟨rfl, rfl, rfl, rfl, rfl, rfl, ?_, rfl⟩
  show (⟨100, (SCREEN_HEIGHT : ℚ) - 200⟩ : Vec2) = ⟨100, 400⟩
  simp only [Vec2.mk.injEq, SCREEN_HEIGHT]
  norm_num

/-- C9 (witness): the soft reset applied to a playing state with three
lives. -/
theorem C9_soft_reset_witness :
    0 < gL.player.lives - 1 ∧
    gL.playerDie = { gL with player :=
        { gL.player with
            lives := gL.player.lives - 1
            pos := ⟨100, (SCREEN_HEIGHT : ℚ) - 200⟩
            vel := ⟨0, 0⟩ } } ∧
    (gL.playerDie).score = gL.score :=
  ⟨by decide, (C9_soft_reset gL (by decide)).1, (C9_soft_reset gL (by decide)).2.1⟩

/-! ### C10 -/

/-- C10 (implicit): the death procedure never touches the jumping flag, so
a player who dies while jumping respawns (position, velocity and lives
reset only) with jumping still true; and since the jump contract requires
the flag to be false, a jump request while the flag is true is a no-op. -/
theorem C10_respawn_keeps_jumping :
    (∀ g : Game, (g.playerDie).player.jumping = g.player.jumping) ∧
    (∀ g : Game, 0 < g.player.lives - 1 →
      (g.playerDie).player = { g.player with
          lives := g.player.lives - 1
          pos := ⟨100, (SCREEN_HEIGHT : ℚ) - 200⟩
          vel := ⟨0, 0⟩ }) ∧
    (∀ (p : Player) (plats : List Platform), p.jumping = true → p.jump plats = p) := by
  refine ⟨?_, ?_, ?_⟩
  · intro g
    simp only [Game.playerDie]
    split <;> rfl
  · intro g h
    unfold Game.playerDie
    rw [if_neg (by omega : ¬ g.player.lives - 1 ≤ 0)]
  · intro p plats hj
    unfold Player.jump
    rw [hj]
    simp

/-- C10 (witness): the player pL is jumping; after dying with lives left
it is still jumping, and a jump request leaves it unchanged. -/
theorem C10_respawn_keeps_jumping_witness :
    gL.player.jumping = true ∧ 0 < gL.player.lives - 1 ∧
    (gL.playerDie).player = { gL.player with
        lives := gL.player.lives - 1
        pos := ⟨100, (SCREEN_HEIGHT : ℚ) - 200⟩
        vel := ⟨0, 0⟩ } ∧
    (gL.playerDie).player.jumping = true ∧
    pL.jump [ground] = pL := by
  refine ⟨by decide, by decide, C10_respawn_keeps_jumping.2.1 gL (by decide), ?_, ?_⟩
  · rw [C10_respawn_keeps_jumping.1 gL]
    decide
  · exact C10_respawn_keeps_jumping.2.2 pL [ground] rfl

/-! ### Helper lemmas: the lowest-platform selection loop -/

lemma selectLowest_cons (a h : Platform) (t : List Platform) :
    selectLowest a (h :: t) =
      selectLowest (if a.rect.bottom < h.rect.bottom then h else a) t := rfl

/-- The first fold iteration compares the starting hit with itself, so
folding over the full hit list equals folding over its tail. -/
lemma selectLowest_self (a : Platform) (l : List Platform) :
    selectLowest a (a :: l) = selectLowest a l := by
  rw [selectLowest_cons, if_neg (lt_irrefl _)]

lemma selectLowest_start_le (a : Platform) (l : List Platform) :
    a.rect.bottom ≤ (selectLowest a l).rect.bottom := by
  induction l generalizing a with
  | nil => exact le_refl _
  | cons h t ih =>
      rw [selectLowest_cons]
      by_cases hc : a.rect.bottom < h.rect.bottom
      · rw [if_pos hc]
        exact le_trans (le_of_lt hc) (ih h)
      · rw [if_neg hc]
        exact ih a

lemma selectLowest_mem (a : Platform) (l : List Platform) :
    selectLowest a l ∈ a :: l := by
  induction l generalizing a with
  | nil => exact List.mem_singleton.mpr rfl
  | cons h t ih =>
      rw [selectLowest_cons]
      by_cases hc : a.rect.bottom < h.rect.bottom
      · rw [if_pos hc]
        rcases List.mem_cons.mp (ih h) with h1 | h1
        · rw [h1]
          exact List.mem_cons_of_mem _ (List.mem_cons_self _ _)
        · exact List.mem_cons_of_mem _ (List.mem_cons_of_mem _ h1)
      · rw [if_neg hc]
        rcases List.mem_cons.mp (ih a) with h1 | h1
        · rw [h1]
          exact List.mem_cons_self _ _
        · exact List.mem_cons_of_mem _ (List.mem_cons_of_mem _ h1)

lemma selectLowest_is_max (a : Platform) (l : List Platform) :
    ∀ x ∈ a :: l, x.rect.bottom ≤ (selectLowest a l).rect.bottom := by
  induction l generalizing a with
  | nil =>
      intro x hx
      rcases List.mem_cons.mp hx with h1 | h1
      · rw [h1]
        exact le_refl _
      · exact absurd h1 (List.not_mem_nil x)
  | cons h t ih =>
      intro x hx
      rw [selectLowest_cons]
      by_cases hc : a.rect.bottom < h.rect.bottom
      · rw [if_pos hc]
        rcases List.mem_cons.mp hx with h1 | h1
        · rw [h1]
          exact le_trans (le_of_lt hc) (selectLowest_start_le h t)
        · exact ih h x h1
      · rw [if_neg hc]
        rcases List.mem_cons.mp hx with h1 | h1
        · rw [h1]
          exact selectLowest_start_le a t
        · rcases List.mem_cons.mp h1 with h2 | h2
          · rw [h2]
            exact le_trans (le_of_not_lt hc) (selectLowest_start_le a t)
          · exact ih a x (List.mem_cons_of_mem a h2)

/-- The fold with a strict comparison returns the first list element
attaining the maximal bottom edge. -/
lemma selectLowest_find (a : Platform) (l : List Platform) :
    (a :: l).find? (fun x => x.rect.bottom == (selectLowest a l).rect.bottom) =
      some (selectLowest a l) := by
  induction l generalizing a with
  | nil =>
      rw [List.find?_cons_of_pos _ (by simp [selectLowest])]
      rfl
  | cons h t ih =>
      rw [selectLowest_cons]
      by_cases hc : a.rect.bottom < h.rect.bottom
      · rw [if_pos hc]
        have hlt : a.rect.bottom < (selectLowest h t).rect.bottom :=
          lt_of_lt_of_le hc (selectLowest_start_le h t)
        rw [List.find?_cons_of_neg _ (by simp [Int.ne_of_lt hlt])]
        exact ih h
      · rw [if_neg hc]
        have iha := ih a
        cases hba : (a.rect.bottom == (selectLowest a t).rect.bottom) with
        | true =>
            rw [List.find?_cons_of_pos _ (by simp [hba]) ] at iha
            rw [List.find?_cons_of_pos _ (by simp [hba])]
            exact iha
        | false =>
            have hax : a.rect.bottom ≠ (selectLowest a t).rect.bottom := by
              simpa using hba
            have h1 : a.rect.bottom ≤ (selectLowest a t).rect.bottom :=
              selectLowest_start_le a t
            have h3 : h.rect.bottom ≤ a.rect.bottom := le_of_not_lt hc
            have hhx : h.rect.bottom ≠ (selectLowest a t).rect.bottom := by omega
            rw [List.find?_cons_of_neg _ (by simp [hax]),
                List.find?_cons_of_neg _ (by simp [hhx])]
            rw [List.find?_cons_of_neg _ (by simp [hax])] at iha
            exact iha

/-- Unfolding of the landing step when the player is falling and the
filtered hit list is known. -/
lemma landingStep_eq_of_hits (g : Game) (h : Platform) (t : List Platform)
    (hv : 0 < g.player.vel.y)
    (hft : g.platforms.filter (fun pl => g.player.rect.collide pl.rect) = h :: t) :
    g.landingStep =
      (if g.player.pos.y < ((selectLowest h (h :: t)).rect.centery : ℚ) then
        { g with player := { g.player with
            pos := ⟨g.player.pos.x, ((selectLowest h (h :: t)).rect.top : ℚ) + 1⟩
            vel := ⟨g.player.vel.x, 0⟩
            jumping := false } }
      else g) := by
  unfold Game.landingStep
  rw [if_pos hv, hft]

/-! ### C1 -/

/-- C1: landing resolution fires only while the vertical velocity is
positive; among the overlapping platforms it selects the one with the
greatest bottom edge using a strict comparison, so the first-encountered
platform wins exact ties (stated via find?); when the player's
pre-resolution vertical position is above that platform's vertical
center it sets position.y to exactly the platform's top edge plus 1,
vertical velocity to 0 and the jumping flag to false — hence the player
is never placed more than one unit below the chosen platform's top
edge — and otherwise, or when the velocity is not positive, the state is
unchanged. -/
theorem C1_landing_resolution (g : Game) :
    (g.player.vel.y ≤ 0 → g.landingStep = g) ∧
    (0 < g.player.vel.y →
      ∀ h t, g.platforms.filter (fun pl => g.player.rect.collide pl.rect) = h :: t →
        (selectLowest h (h :: t) ∈ h :: t ∧
         (∀ q ∈ h :: t, q.rect.bottom ≤ (selectLowest h (h :: t)).rect.bottom) ∧
         (h :: t).find?
             (fun q => q.rect.bottom == (selectLowest h (h :: t)).rect.bottom) =
           some (selectLowest h (h :: t))) ∧
        (g.player.pos.y < ((selectLowest h (h :: t)).rect.centery : ℚ) →
          (g.landingStep).player.pos.y = ((selectLowest h (h :: t)).rect.top : ℚ) + 1 ∧
          (g.landingStep).player.vel.y = 0 ∧
          (g.landingStep).player.jumping = false ∧
          (g.landingStep).player.pos.y ≤ ((selectLowest h (h :: t)).rect.top : ℚ) + 1) ∧
        (((selectLowest h (h :: t)).rect.centery : ℚ) ≤ g.player.pos.y →
          g.landingStep = g)) := by
  constructor
  · intro hv
    unfold Game.landingStep
    rw [if_neg (not_lt.mpr hv)]
  · intro hv h t hft
    have hsel : selectLowest h (h :: t) = selectLowest h t := selectLowest_self h t
    have heq := landingStep_eq_of_hits g h t hv hft
    refine ⟨⟨?_, ?_, ?_⟩, ?_, ?_⟩
    · rw [hsel]
      exact selectLowest_mem h t
    · intro q hq
      rw [hsel]
      exact selectLowest_is_max h t q hq
    · rw [hsel]
      exact selectLowest_find h t
    · intro hpos
      rw [heq, if_pos hpos]
      exact ⟨rfl, rfl, rfl, le_refl _⟩
    · intro hpos
      rw [heq, if_neg (not_lt.mpr hpos)]

/-- C1 (witness): the landing theorem applied to a falling player
overlapping the single platform (100, 400, 150, 20): it lands on
y = 401, with velocity zeroed and the jumping flag cleared. -/
theorem C1_landing_witness :
    0 < gL.player.vel.y ∧
    gL.platforms.filter (fun pl => gL.player.rect.collide pl.rect) = [plat1] ∧
    gL.player.pos.y < ((selectLowest plat1 [plat1]).rect.centery : ℚ) ∧
    (gL.landingStep).player.pos.y = ((selectLowest plat1 [plat1]).rect.top : ℚ) + 1 ∧
    (gL.landingStep).player.vel.y = 0 ∧
    (gL.landingStep).player.jumping = false := by
  have h := ((C1_landing_resolution gL).2 (by decide) plat1 [] (by decide)).2.1 (by decide)
  exact ⟨by decide, by decide, by decide, h.1, h.2.1, h.2.2.1⟩

/-! ### Frame lemmas for the tick pipeline -/

lemma playerDie_score (g : Game) : (g.playerDie).score = g.score := by
  simp only [Game.playerDie]
  split <;> rfl

lemma playerDie_coins (g : Game) : (g.playerDie).coins = g.coins := by
  simp only [Game.playerDie]
  split <;> rfl

lemma playerDie_enemies (g : Game) : (g.playerDie).enemies = g.enemies := by
  simp only [Game.playerDie]
  split <;> rfl

lemma playerDie_platforms (g : Game) : (g.playerDie).platforms = g.platforms := by
  simp only [Game.playerDie]
  split <;> rfl

lemma playerDie_level (g : Game) : (g.playerDie).level = g.level := by
  simp only [Game.playerDie]
  split <;> rfl

lemma playerDie_rect (g : Game) : (g.playerDie).player.rect = g.player.rect := by
  simp only [Game.playerDie]
  split <;> rfl

lemma playerDie_lives (g : Game) :
    (g.playerDie).player.lives = g.player.lives - 1 := by
  simp only [Game.playerDie]
  split <;> rfl

lemma playerDie_state (g : Game) :
    (g.playerDie).game_state =
      (if g.player.lives - 1 ≤ 0 then GAME_OVER else g.game_state) := by
  simp only [Game.playerDie]
  split <;> rename_i h <;> simp [h]

lemma landingStep_frame (g : Game) :
    (g.landingStep).game_state = g.game_state ∧
    (g.landingStep).score = g.score ∧
    (g.landingStep).level = g.level ∧
    (g.landingStep).coins = g.coins ∧
    (g.landingStep).enemies = g.enemies ∧
    (g.landingStep).platforms = g.platforms ∧
    (g.landingStep).player.lives = g.player.lives ∧
    (g.landingStep).player.rect = g.player.rect := by
  simp only [Game.landingStep]
  repeat' split
  all_goals exact ⟨rfl, rfl, rfl, rfl, rfl, rfl, rfl, rfl⟩

lemma coinFold_spec (l : List Coin) (g : Game) :
    (l.foldl coinBody g).score = g.score + 10 * (l.length : Int) ∧
    (l.foldl coinBody g).coins = g.coins ∧
    (l.foldl coinBody g).player = g.player ∧
    (l.foldl coinBody g).enemies = g.enemies ∧
    (l.foldl coinBody g).platforms = g.platforms ∧
    (l.foldl coinBody g).level = g.level ∧
    (l.foldl coinBody g).game_state =
      (if l = [] then g.game_state
       else if g.coins.length = 0 then WIN else g.game_state) := by
  induction l generalizing g with
  | nil => exact ⟨by simp, rfl, rfl, rfl, rfl, rfl, rfl⟩
  | cons c l ih =>
      obtain ⟨h1, h2, h3, h4, h5, h6, h7⟩ := ih (coinBody g c)
      rw [List.foldl_cons]
      refine ⟨?_, h2, h3, h4, h5, h6, ?_⟩
      · rw [h1]
        simp only [coinBody, List.length_cons]
        push_cast
        ring
      · rw [h7]
        by_cases hz : g.coins.length = 0 <;> by_cases hl : l = [] <;>
          simp [coinBody, hz, hl]

lemma coinStep_coins (g : Game) :
    (g.coinStep).coins = g.coins.filter (fun c => !(g.player.rect.collide c.rect)) :=
  (coinFold_spec (g.coins.filter (fun c => g.player.rect.collide c.rect))
    { g with coins := g.coins.filter (fun c => !(g.player.rect.collide c.rect)) }).2.1

lemma coinStep_score (g : Game) :
    (g.coinStep).score = g.score +
      10 * ((g.coins.filter (fun c => g.player.rect.collide c.rect)).length : Int) :=
  (coinFold_spec (g.coins.filter (fun c => g.player.rect.collide c.rect))
    { g with coins := g.coins.filter (fun c => !(g.player.rect.collide c.rect)) }).1

lemma coinStep_player (g : Game) : (g.coinStep).player = g.player :=
  (coinFold_spec (g.coins.filter (fun c => g.player.rect.collide c.rect))
    { g with coins := g.coins.filter (fun c => !(g.player.rect.collide c.rect)) }).2.2.1

lemma coinStep_enemies (g : Game) : (g.coinStep).enemies = g.enemies :=
  (coinFold_spec (g.coins.filter (fun c => g.player.rect.collide c.rect))
    { g with coins := g.coins.filter (fun c => !(g.player.rect.collide c.rect)) }).2.2.2.1

lemma coinStep_platforms (g : Game) : (g.coinStep).platforms = g.platforms :=
  (coinFold_spec (g.coins.filter (fun c => g.player.rect.collide c.rect))
    { g with coins := g.coins.filter (fun c => !(g.player.rect.collide c.rect)) }).2.2.2.2.1

lemma coinStep_level (g : Game) : (g.coinStep).level = g.level :=
  (coinFold_spec (g.coins.filter (fun c => g.player.rect.collide c.rect))
    { g with coins := g.coins.filter (fun c => !(g.player.rect.collide c.rect)) }).2.2.2.2.2.1

lemma coinStep_state (g : Game) :
    (g.coinStep).game_state =
      (if g.coins.filter (fun c => g.player.rect.collide c.rect) = [] then g.game_state
       else if (g.coins.filter (fun c => !(g.player.rect.collide c.rect))).length = 0
       then WIN else g.game_state) :=
  (coinFold_spec (g.coins.filter (fun c => g.player.rect.collide c.rect))
    { g with coins := g.coins.filter (fun c => !(g.player.rect.collide c.rect)) }).2.2.2.2.2.2

lemma enemyStep_eq (g : Game) :
    g.enemyStep =
      (if g.enemies.any (fun e => g.player.rect.collide e.rect)
       then g.playerDie else g) := rfl

lemma enemyStep_enemies (g : Game) : (g.enemyStep).enemies = g.enemies := by
  unfold Game.enemyStep
  split
  · exact playerDie_enemies _
  · rfl

lemma enemyStep_coins (g : Game) : (g.enemyStep).coins = g.coins := by
  unfold Game.enemyStep
  split
  · exact playerDie_coins _
  · rfl

lemma enemyStep_score (g : Game) : (g.enemyStep).score = g.score := by
  unfold Game.enemyStep
  split
  · exact playerDie_score _
  · rfl

lemma enemyStep_platforms (g : Game) : (g.enemyStep).platforms = g.platforms := by
  unfold Game.enemyStep
  split
  · exact playerDie_platforms _
  · rfl

lemma spritesUpdate_coins (g : Game) (keys : Keys) :
    (g.spritesUpdate keys).coins = g.coins := by
  simp only [Game.spritesUpdate, Game.playerUpdate]
  split
  · exact playerDie_coins _
  · rfl

lemma spritesUpdate_score (g : Game) (keys : Keys) :
    (g.spritesUpdate keys).score = g.score := by
  simp only [Game.spritesUpdate, Game.playerUpdate]
  split
  · exact playerDie_score _
  · rfl

lemma spritesUpdate_enemies (g : Game) (keys : Keys) :
    (g.spritesUpdate keys).enemies = g.enemies.map Enemy.update := by
  simp only [Game.spritesUpdate, Game.playerUpdate]
  split
  · exact congrArg (List.map Enemy.update) (playerDie_enemies _)
  · rfl

lemma spritesUpdate_platforms (g : Game) (keys : Keys) :
    (g.spritesUpdate keys).platforms = g.platforms.map Platform.update := by
  simp only [Game.spritesUpdate, Game.playerUpdate]
  split
  · exact congrArg (List.map Platform.update) (playerDie_platforms _)
  · rfl

lemma spritesUpdate_rect (g : Game) (keys : Keys) :
    (g.spritesUpdate keys).player.rect = (g.player.move keys).rect := by
  simp only [Game.spritesUpdate, Game.playerUpdate]
  split
  · exact playerDie_rect _
  · rfl

lemma spritesUpdate_lives (g : Game) (keys : Keys) :
    (g.spritesUpdate keys).player.lives =
      (if SCREEN_HEIGHT < (g.player.move keys).rect.top
       then g.player.lives - 1 else g.player.lives) := by
  simp only [Game.spritesUpdate, Game.playerUpdate]
  split
  · exact playerDie_lives _
  · rfl

lemma spritesUpdate_state (g : Game) (keys : Keys) :
    (g.spritesUpdate keys).game_state =
      (if SCREEN_HEIGHT < (g.player.move keys).rect.top
       then (if g.player.lives - 1 ≤ 0 then GAME_OVER else g.game_state)
       else g.game_state) := by
  simp only [Game.spritesUpdate, Game.playerUpdate]
  split
  · exact playerDie_state _
  · rfl

/-! ### Geometric separation lemmas -/

lemma collide_false_of_below {a b : Rect} (ha : SCREEN_HEIGHT < a.y)
    (hb : b.y + b.h ≤ SCREEN_HEIGHT) : a.collide b = false := by
  simp only [Rect.collide]
  have h1 : ¬ (a.y < b.y + b.h) := by omega
  simp [h1]

lemma length_filter_partition {α : Type} (p : α → Bool) (l : List α) :
    (l.filter p).length + (l.filter (fun a => !(p a))).length = l.length := by
  induction l with
  | nil => rfl
  | cons a l ih =>
      cases hp : p a <;> simp [List.filter_cons, hp] <;> omega

/-! ### C2 -/

/-- C2: starting from a playing state with at least one life whose
enemies and coins all lie within the screen (as every level built by
create_level does, and as every tick preserves), one tick never drives
the lives counter negative; the tick ends in the game-over state exactly
when the lives counter went from 1 to 0 via the death procedure; a tick
that does not end in game-over keeps at least one life; and the
within-screen side conditions are preserved, so the properties hold on
every reachable playing state.  In particular a tick in which the player
falls below the screen leaves the player's stale rect below the screen,
so the enemy overlap check of the same tick cannot fire a second death. -/
theorem C2_lives_and_game_over (keys : Keys) (g : Game)
    (hs : g.game_state = PLAYING)
    (hl : 1 ≤ g.player.lives)
    (he : ∀ e ∈ g.enemies, e.rect.y + e.rect.h ≤ SCREEN_HEIGHT)
    (hc : ∀ c ∈ g.coins, c.rect.y + c.rect.h ≤ SCREEN_HEIGHT) :
    0 ≤ (g.update keys).player.lives ∧
    ((g.update keys).game_state = GAME_OVER ↔
      (g.player.lives = 1 ∧ (g.update keys).player.lives = 0)) ∧
    ((g.update keys).game_state ≠ GAME_OVER → 1 ≤ (g.update keys).player.lives) ∧
    (∀ e ∈ (g.update keys).enemies, e.rect.y + e.rect.h ≤ SCREEN_HEIGHT) ∧
    (∀ c ∈ (g.update keys).coins, c.rect.y + c.rect.h ≤ SCREEN_HEIGHT) ∧
    (∀ lvl : Int, ∀ e ∈ createLevelEnemies lvl, e.rect.y + e.rect.h ≤ SCREEN_HEIGHT) ∧
    (∀ lvl : Int, ∀ c ∈ createLevelCoins lvl, c.rect.y + c.rect.h ≤ SCREEN_HEIGHT) := by
  have hlevelE : ∀ lvl : Int, ∀ e ∈ createLevelEnemies lvl,
      e.rect.y + e.rect.h ≤ SCREEN_HEIGHT := by
    intro lvl e hee
    unfold createLevelEnemies at hee
    split at hee <;> fin_cases hee <;> decide
  have hlevelC : ∀ lvl : Int, ∀ c ∈ createLevelCoins lvl,
      c.rect.y + c.rect.h ≤ SCREEN_HEIGHT := by
    intro lvl c hcc
    unfold createLevelCoins at hcc
    split at hcc <;> fin_cases hcc <;> decide
  have hup : g.update keys = (((g.spritesUpdate keys).landingStep).coinStep).enemyStep := rfl
  have hEn3 : (((g.spritesUpdate keys).landingStep).coinStep).enemies =
      g.enemies.map Enemy.update := by
    rw [coinStep_enemies, (landingStep_frame _).2.2.2.2.1, spritesUpdate_enemies]
  have hEn4 : (g.update keys).enemies = g.enemies.map Enemy.update := by
    rw [hup, enemyStep_enemies, hEn3]
  have hEnBound : ∀ e ∈ (g.update keys).enemies, e.rect.y + e.rect.h ≤ SCREEN_HEIGHT := by
    rw [hEn4]
    intro e he'
    rcases List.mem_map.mp he' with ⟨e0, he0, rfl⟩
    have hf := enemyUpdate_frame e0
    rw [hf.2.2.2.1, hf.2.2.2.2.2]
    exact he e0 he0
  have hC2eq : ((g.spritesUpdate keys).landingStep).coins = g.coins := by
    rw [(landingStep_frame _).2.2.2.1, spritesUpdate_coins]
  have hCBound : ∀ c ∈ (g.update keys).coins, c.rect.y + c.rect.h ≤ SCREEN_HEIGHT := by
    intro c hcm
    rw [hup, enemyStep_coins, coinStep_coins] at hcm
    have := (List.mem_filter.mp hcm).1
    rw [hC2eq] at this
    exact hc c this
  have hRect3 : (((g.spritesUpdate keys).landingStep).coinStep).player.rect =
      (g.player.move keys).rect := by
    rw [coinStep_player, (landingStep_frame _).2.2.2.2.2.2.2, spritesUpdate_rect]
  have hRect2 : ((g.spritesUpdate keys).landingStep).player.rect =
      (g.player.move keys).rect := by
    rw [(landingStep_frame _).2.2.2.2.2.2.2, spritesUpdate_rect]
  by_cases hfall : SCREEN_HEIGHT < (g.player.move keys).rect.top
  · -- the player fell below the screen during the sprite update
    have hrecty : SCREEN_HEIGHT < (g.player.move keys).rect.y := hfall
    have hState1 : (g.spritesUpdate keys).game_state =
        (if g.player.lives - 1 ≤ 0 then GAME_OVER else g.game_state) := by
      rw [spritesUpdate_state, if_pos hfall]
    have hLives1 : (g.spritesUpdate keys).player.lives = g.player.lives - 1 := by
      rw [spritesUpdate_lives, if_pos hfall]
    have hhits : ((g.spritesUpdate keys).landingStep).coins.filter
        (fun c => ((g.spritesUpdate keys).landingStep).player.rect.collide c.rect) = [] := by
      apply List.filter_eq_nil_iff.mpr
      intro c hcm
      rw [hC2eq] at hcm
      rw [hRect2]
      simp [collide_false_of_below hrecty (hc c hcm)]
    have hState3 : (((g.spritesUpdate keys).landingStep).coinStep).game_state =
        (if g.player.lives - 1 ≤ 0 then GAME_OVER else g.game_state) := by
      rw [coinStep_state, if_pos hhits, (landingStep_frame _).1, hState1]
    have hLives3 : (((g.spritesUpdate keys).landingStep).coinStep).player.lives =
        g.player.lives - 1 := by
      rw [coinStep_player, (landingStep_frame _).2.2.2.2.2.2.1, hLives1]
    have hA : ((((g.spritesUpdate keys).landingStep).coinStep).enemies.any
        (fun e => (((g.spritesUpdate keys).landingStep).coinStep).player.rect.collide e.rect))
        = false := by
      apply List.any_eq_false.mpr
      intro e hem
      rw [hEn3] at hem
      rcases List.mem_map.mp hem with ⟨e0, he0, rfl⟩
      rw [hRect3]
      have hf := enemyUpdate_frame e0
      have hbound : (Enemy.update e0).rect.y + (Enemy.update e0).rect.h ≤ SCREEN_HEIGHT := by
        rw [hf.2.2.2.1, hf.2.2.2.2.2]
        exact he e0 he0
      simp [collide_false_of_below hrecty hbound]
    have hfinal : g.update keys = ((g.spritesUpdate keys).landingStep).coinStep := by
      rw [hup, enemyStep_eq, hA]
      simp
    have hLivesF : (g.update keys).player.lives = g.player.lives - 1 := by
      rw [hfinal, hLives3]
    have hStateF : (g.update keys).game_state =
        (if g.player.lives - 1 ≤ 0 then GAME_OVER else g.game_state) := by
      rw [hfinal, hState3]
    by_cases hz : g.player.lives - 1 ≤ 0
    · have h1 : g.player.lives = 1 := by omega
      refine ⟨?_, ?_, ?_, hEnBound, hCBound, hlevelE, hlevelC⟩
      · rw [hLivesF]
        omega
      · rw [hStateF, if_pos hz, hLivesF]
        exact ⟨fun _ => ⟨h1, by omega⟩, fun _ => rfl⟩
      · rw [hStateF, if_pos hz]
        intro hne
        exact absurd rfl hne
    · refine ⟨?_, ?_, ?_, hEnBound, hCBound, hlevelE, hlevelC⟩
      · rw [hLivesF]
        omega
      · rw [hStateF, if_neg hz, hLivesF, hs]
        constructor
        · intro hcon
          exact absurd hcon (by decide)
        · rintro ⟨h1', h0'⟩
          omega
      · rw [hStateF, if_neg hz, hLivesF]
        intro _
        omega
  · -- no fall this tick
    have hState1 : (g.spritesUpdate keys).game_state = g.game_state := by
      rw [spritesUpdate_state, if_neg hfall]
    have hLives1 : (g.spritesUpdate keys).player.lives = g.player.lives := by
      rw [spritesUpdate_lives, if_neg hfall]
    have hState3 : (((g.spritesUpdate keys).landingStep).coinStep).game_state = PLAYING ∨
        (((g.spritesUpdate keys).landingStep).coinStep).game_state = WIN := by
      rw [coinStep_state]
      split
      · left
        rw [(landingStep_frame _).1, hState1, hs]
      · split
        · right
          rfl
        · left
          rw [(landingStep_frame _).1, hState1, hs]
    have hne3 : (((g.spritesUpdate keys).landingStep).coinStep).game_state ≠ GAME_OVER := by
      rcases hState3 with h3 | h3 <;> rw [h3] <;> decide
    have hLives3 : (((g.spritesUpdate keys).landingStep).coinStep).player.lives =
        g.player.lives := by
      rw [coinStep_player, (landingStep_frame _).2.2.2.2.2.2.1, hLives1]
    by_cases hA : ((((g.spritesUpdate keys).landingStep).coinStep).enemies.any
        (fun e => (((g.spritesUpdate keys).landingStep).coinStep).player.rect.collide e.rect))
        = true
    · have hfinal : g.update keys = (((g.spritesUpdate keys).landingStep).coinStep).playerDie := by
        rw [hup, enemyStep_eq, if_pos hA]
      have hLivesF : (g.update keys).player.lives = g.player.lives - 1 := by
        rw [hfinal, playerDie_lives, hLives3]
      have hStateF : (g.update keys).game_state =
          (if g.player.lives - 1 ≤ 0 then GAME_OVER
           else (((g.spritesUpdate keys).landingStep).coinStep).game_state) := by
        rw [hfinal, playerDie_state, hLives3]
      by_cases hz : g.player.lives - 1 ≤ 0
      · have h1 : g.player.lives = 1 := by omega
        refine ⟨?_, ?_, ?_, hEnBound, hCBound, hlevelE, hlevelC⟩
        · rw [hLivesF]
          omega
        · rw [hStateF, if_pos hz, hLivesF]
          exact ⟨fun _ => ⟨h1, by omega⟩, fun _ => rfl⟩
        · rw [hStateF, if_pos hz]
          intro hne
          exact absurd rfl hne
      · refine ⟨?_, ?_, ?_, hEnBound, hCBound, hlevelE, hlevelC⟩
        · rw [hLivesF]
          omega
        · rw [hStateF, if_neg hz, hLivesF]
          constructor
          · intro hcon
            exact absurd hcon hne3
          · rintro ⟨h1', h0'⟩
            omega
        · rw [hLivesF]
          intro _
          omega
    · have hA' : ((((g.spritesUpdate keys).landingStep).coinStep).enemies.any
          (fun e => (((g.spritesUpdate keys).landingStep).coinStep).player.rect.collide e.rect))
          = false := by
        cases h : ((((g.spritesUpdate keys).landingStep).coinStep).enemies.any
            (fun e => (((g.spritesUpdate keys).landingStep).coinStep).player.rect.collide e.rect))
        · rfl
        · exact absurd h hA
      have hfinal : g.update keys = ((g.spritesUpdate keys).landingStep).coinStep := by
        rw [hup, enemyStep_eq, hA']
        simp
      have hLivesF : (g.update keys).player.lives = g.player.lives := by
        rw [hfinal, hLives3]
      refine ⟨?_, ?_, ?_, hEnBound, hCBound, hlevelE, hlevelC⟩
      · rw [hLivesF]
        omega
      · rw [hfinal, hLives3]
        constructor
        · intro hcon
          exact absurd hcon hne3
        · rintro ⟨h1', h0'⟩
          omega
      · rw [hLivesF]
        intro _
        omega

/-! ### C3 -/

lemma pC3_move : pC3.move keysNone = pMoved := by
  unfold pC3 pMoved Player.move Player.integrate wrapX ratTrunc keysNone
  norm_num [PLAYER_FRICTION, PLAYER_GRAVITY, SCREEN_WIDTH, Player.mk.injEq,
    Vec2.mk.injEq, Rect.mk.injEq, Rat.num_ofNat, Rat.den_ofNat, Int.tdiv]

lemma gC3_sprites : gC3.spritesUpdate keysNone = gMoved := by
  have h1 : gC3.player.move keysNone = pMoved := pC3_move
  simp only [Game.spritesUpdate, Game.playerUpdate]
  rw [h1]
  rw [if_neg (by decide : ¬ SCREEN_HEIGHT < pMoved.rect.top)]
  rfl

lemma gMoved_landing : gMoved.landingStep = gMoved := by
  unfold Game.landingStep
  rw [if_pos (by norm_num [gMoved, pMoved] : (0:ℚ) < gMoved.player.vel.y)]
  rw [show gMoved.platforms.filter
      (fun pl => gMoved.player.rect.collide pl.rect) = [] from by decide]

lemma gMoved_coin : gMoved.coinStep = gCoined := by
  simp only [Game.coinStep]
  rw [show gMoved.coins.filter
      (fun c => gMoved.player.rect.collide c.rect) = [coinC3] from by decide]
  rw [show gMoved.coins.filter
      (fun c => !(gMoved.player.rect.collide c.rect)) = [] from by decide]
  rfl

lemma gCoined_enemy : gCoined.enemyStep = gFinal := by
  unfold Game.enemyStep
  rw [if_pos (by decide : gCoined.enemies.any
      (fun e => gCoined.player.rect.collide e.rect) = true)]
  unfold Game.playerDie
  rw [if_pos (by decide : gCoined.player.lives - 1 ≤ 0)]
  rfl

lemma gC3_update : gC3.update keysNone = gFinal := by
  show (((gC3.spritesUpdate keysNone).landingStep).coinStep).enemyStep = gFinal
  rw [gC3_sprites, gMoved_landing, gMoved_coin, gCoined_enemy]

/-- C3 (counterexample): in the playing state gC3 (one life, one
remaining coin and an enemy both overlapping the player), the tick's coin
collection is nonempty and empties the coin set, yet the tick does not
transition to the win state: the enemy collision of the same tick kills
the last life and the tick ends in GAME_OVER. -/
theorem C3_counterexample :
    gC3.game_state = PLAYING ∧
    ((gC3.spritesUpdate keysNone).landingStep).coins.filter
        (fun c => ((gC3.spritesUpdate keysNone).landingStep).player.rect.collide c.rect)
      = [coinC3] ∧
    ((gC3.spritesUpdate keysNone).landingStep).coins.filter
        (fun c => !(((gC3.spritesUpdate keysNone).landingStep).player.rect.collide c.rect))
      = [] ∧
    (gC3.update keysNone).game_state = GAME_OVER ∧
    ¬ (gC3.update keysNone).game_state = WIN := by
  have h2 : (gC3.spritesUpdate keysNone).landingStep = gMoved := by
    rw [gC3_sprites, gMoved_landing]
  refine ⟨rfl, ?_, ?_, ?_, ?_⟩
  · rw [h2]
    decide
  · rw [h2]
    decide
  · rw [gC3_update]
    rfl
  · rw [gC3_update]
    decide

/-- C3 (amended): a tick from a playing state with at least one life and
all enemies and coins within the screen transitions to the win state if
and only if the tick's coin collection is nonempty, it empties the coin
set, and the same tick does not also trigger a fatal enemy collision
(an enemy overlap while exactly one life remains — in that case the death
procedure overwrites WIN with GAME_OVER); whenever the tick ends in the
win state the coin set is empty; and the freshly built level 1 has
exactly 5 coins. -/
theorem C3_win_characterization (keys : Keys) (g : Game)
    (hs : g.game_state = PLAYING)
    (hl : 1 ≤ g.player.lives)
    (he : ∀ e ∈ g.enemies, e.rect.y + e.rect.h ≤ SCREEN_HEIGHT)
    (hc : ∀ c ∈ g.coins, c.rect.y + c.rect.h ≤ SCREEN_HEIGHT) :
    ((g.update keys).game_state = WIN ↔
      (g.coins.filter (fun c => (g.player.move keys).rect.collide c.rect) ≠ [] ∧
       g.coins.filter (fun c => !((g.player.move keys).rect.collide c.rect)) = [] ∧
       ¬((g.enemies.map Enemy.update).any
            (fun e => (g.player.move keys).rect.collide e.rect) = true ∧
         g.player.lives = 1))) ∧
    ((g.update keys).game_state = WIN → (g.update keys).coins = []) ∧
    (createLevelCoins 1).length = 5 := by
  have hup : g.update keys = (((g.spritesUpdate keys).landingStep).coinStep).enemyStep := rfl
  have hC2eq : ((g.spritesUpdate keys).landingStep).coins = g.coins := by
    rw [(landingStep_frame _).2.2.2.1, spritesUpdate_coins]
  have hRect2 : ((g.spritesUpdate keys).landingStep).player.rect =
      (g.player.move keys).rect := by
    rw [(landingStep_frame _).2.2.2.2.2.2.2, spritesUpdate_rect]
  have hRect3 : (((g.spritesUpdate keys).landingStep).coinStep).player.rect =
      (g.player.move keys).rect := by
    rw [coinStep_player]
    exact hRect2
  have hEn3 : (((g.spritesUpdate keys).landingStep).coinStep).enemies =
      g.enemies.map Enemy.update := by
    rw [coinStep_enemies, (landingStep_frame _).2.2.2.2.1, spritesUpdate_enemies]
  have hhitsEq : ((g.spritesUpdate keys).landingStep).coins.filter
      (fun c => ((g.spritesUpdate keys).landingStep).player.rect.collide c.rect) =
      g.coins.filter (fun c => (g.player.move keys).rect.collide c.rect) := by
    simp only [hC2eq, hRect2]
  have hremEq : ((g.spritesUpdate keys).landingStep).coins.filter
      (fun c => !(((g.spritesUpdate keys).landingStep).player.rect.collide c.rect)) =
      g.coins.filter (fun c => !((g.player.move keys).rect.collide c.rect)) := by
    simp only [hC2eq, hRect2]
  have hAnyEq : ((((g.spritesUpdate keys).landingStep).coinStep).enemies.any
      (fun e => (((g.spritesUpdate keys).landingStep).coinStep).player.rect.collide e.rect)) =
      ((g.enemies.map Enemy.update).any
        (fun e => (g.player.move keys).rect.collide e.rect)) := by
    simp only [hEn3, hRect3]
  have hCoins4 : (g.update keys).coins =
      g.coins.filter (fun c => !((g.player.move keys).rect.collide c.rect)) := by
    rw [hup, enemyStep_coins, coinStep_coins, hremEq]
  have hState3 : (((g.spritesUpdate keys).landingStep).coinStep).game_state =
      (if g.coins.filter (fun c => (g.player.move keys).rect.collide c.rect) = []
       then ((g.spritesUpdate keys).landingStep).game_state
       else if (g.coins.filter
            (fun c => !((g.player.move keys).rect.collide c.rect))).length = 0
       then WIN
       else ((g.spritesUpdate keys).landingStep).game_state) := by
    rw [coinStep_state, hhitsEq, hremEq]
  have hMain : (g.update keys).game_state = WIN ↔
      (g.coins.filter (fun c => (g.player.move keys).rect.collide c.rect) ≠ [] ∧
       g.coins.filter (fun c => !((g.player.move keys).rect.collide c.rect)) = [] ∧
       ¬((g.enemies.map Enemy.update).any
            (fun e => (g.player.move keys).rect.collide e.rect) = true ∧
         g.player.lives = 1)) := by
    by_cases hfall : SCREEN_HEIGHT < (g.player.move keys).rect.top
    · have hrecty : SCREEN_HEIGHT < (g.player.move keys).rect.y := hfall
      have hhitsNil : g.coins.filter
          (fun c => (g.player.move keys).rect.collide c.rect) = [] := by
        apply List.filter_eq_nil_iff.mpr
        intro c hcm
        simp [collide_false_of_below hrecty (hc c hcm)]
      have hg1 : (g.spritesUpdate keys).game_state =
          (if g.player.lives - 1 ≤ 0 then GAME_OVER else g.game_state) := by
        rw [spritesUpdate_state, if_pos hfall]
      have hg3 : (((g.spritesUpdate keys).landingStep).coinStep).game_state =
          (if g.player.lives - 1 ≤ 0 then GAME_OVER else g.game_state) := by
        rw [hState3, if_pos hhitsNil, (landingStep_frame _).1, hg1]
      have hA : ((((g.spritesUpdate keys).landingStep).coinStep).enemies.any
          (fun e => (((g.spritesUpdate keys).landingStep).coinStep).player.rect.collide
            e.rect)) = false := by
        apply List.any_eq_false.mpr
        intro e hem
        rw [hEn3] at hem
        rcases List.mem_map.mp hem with ⟨e0, he0, rfl⟩
        rw [hRect3]
        have hf := enemyUpdate_frame e0
        have hbound : (Enemy.update e0).rect.y + (Enemy.update e0).rect.h ≤
            SCREEN_HEIGHT := by
          rw [hf.2.2.2.1, hf.2.2.2.2.2]
          exact he e0 he0
        simp [collide_false_of_below hrecty hbound]
      have hfinal : g.update keys = ((g.spritesUpdate keys).landingStep).coinStep := by
        rw [hup, enemyStep_eq, hA]
        simp
      constructor
      · intro hw
        rw [hfinal, hg3] at hw
        exfalso
        by_cases hz : g.player.lives - 1 ≤ 0
        · rw [if_pos hz] at hw
          exact absurd hw (by decide)
        · rw [if_neg hz, hs] at hw
          exact absurd hw (by decide)
      · rintro ⟨hne, _, _⟩
        exact absurd hhitsNil hne
    · have hg1 : (g.spritesUpdate keys).game_state = g.game_state := by
        rw [spritesUpdate_state, if_neg hfall]
      have hg2 : ((g.spritesUpdate keys).landingStep).game_state = PLAYING := by
        rw [(landingStep_frame _).1, hg1, hs]
      have hLives3 : (((g.spritesUpdate keys).landingStep).coinStep).player.lives =
          g.player.lives := by
        rw [coinStep_player, (landingStep_frame _).2.2.2.2.2.2.1, spritesUpdate_lives,
          if_neg hfall]
      have hNoWin : (((g.spritesUpdate keys).landingStep).coinStep).game_state = PLAYING →
          ¬ (g.update keys).game_state = WIN := by
        intro hg3 hw
        rw [hup, enemyStep_eq] at hw
        by_cases hA3 : ((((g.spritesUpdate keys).landingStep).coinStep).enemies.any
            (fun e => (((g.spritesUpdate keys).landingStep).coinStep).player.rect.collide
              e.rect)) = true
        · rw [if_pos hA3, playerDie_state, hg3] at hw
          by_cases hz : (((g.spritesUpdate keys).landingStep).coinStep).player.lives - 1 ≤ 0
          · rw [if_pos hz] at hw
            exact absurd hw (by decide)
          · rw [if_neg hz] at hw
            exact absurd hw (by decide)
        · rw [if_neg hA3, hg3] at hw
          exact absurd hw (by decide)
      by_cases hhit : g.coins.filter
          (fun c => (g.player.move keys).rect.collide c.rect) = []
      · have hg3 : (((g.spritesUpdate keys).landingStep).coinStep).game_state = PLAYING := by
          rw [hState3, if_pos hhit, hg2]
        constructor
        · intro hw
          exact absurd hw (hNoWin hg3)
        · rintro ⟨hne, _, _⟩
          exact absurd hhit hne
      · by_cases hrem : (g.coins.filter
            (fun c => !((g.player.move keys).rect.collide c.rect))).length = 0
        · have hremNil : g.coins.filter
              (fun c => !((g.player.move keys).rect.collide c.rect)) = [] :=
            List.length_eq_zero.mp hrem
          have hg3 : (((g.spritesUpdate keys).landingStep).coinStep).game_state = WIN := by
            rw [hState3, if_neg hhit, if_pos hrem]
          constructor
          · intro hw
            refine ⟨hhit, hremNil, ?_⟩
            rintro ⟨hA, h1⟩
            have hA3 : ((((g.spritesUpdate keys).landingStep).coinStep).enemies.any
                (fun e => (((g.spritesUpdate keys).landingStep).coinStep).player.rect.collide
                  e.rect)) = true := by
              rw [hAnyEq]
              exact hA
            rw [hup, enemyStep_eq, if_pos hA3, playerDie_state, hLives3, h1] at hw
            rw [if_pos (by omega : (1:Int) - 1 ≤ 0)] at hw
            exact absurd hw (by decide)
          · rintro ⟨_, _, hno⟩
            rw [hup, enemyStep_eq]
            by_cases hA3 : ((((g.spritesUpdate keys).landingStep).coinStep).enemies.any
                (fun e => (((g.spritesUpdate keys).landingStep).coinStep).player.rect.collide
                  e.rect)) = true
            · have hA : ((g.enemies.map Enemy.update).any
                  (fun e => (g.player.move keys).rect.collide e.rect)) = true := by
                rw [← hAnyEq]
                exact hA3
              have hz : ¬ ((((g.spritesUpdate keys).landingStep).coinStep).player.lives - 1
                  ≤ 0) := by
                rw [hLives3]
                intro hcon
                exact hno ⟨hA, by omega⟩
              rw [if_pos hA3, playerDie_state, if_neg hz, hg3]
            · rw [if_neg hA3, hg3]
        · have hg3 : (((g.spritesUpdate keys).landingStep).coinStep).game_state =
              PLAYING := by
            rw [hState3, if_neg hhit, if_neg hrem, hg2]
          constructor
          · intro hw
            exact absurd hw (hNoWin hg3)
          · rintro ⟨_, hremNil, _⟩
            rw [hremNil] at hrem
            exact absurd rfl hrem
  refine ⟨hMain, ?_, by decide⟩
  intro hw
  rw [hCoins4]
  exact (hMain.mp hw).2.1

/-- C3 (witness): the win characterization applied at the concrete state
gC3: the tick empties the coin set but the fatal enemy collision
prevents the WIN transition. -/
theorem C3_win_witness :
    gC3.game_state = PLAYING ∧ 1 ≤ gC3.player.lives ∧
    ((gC3.update keysNone).game_state = WIN ↔
      (gC3.coins.filter (fun c => (gC3.player.move keysNone).rect.collide c.rect) ≠ [] ∧
       gC3.coins.filter (fun c => !((gC3.player.move keysNone).rect.collide c.rect)) = [] ∧
       ¬((gC3.enemies.map Enemy.update).any
            (fun e => (gC3.player.move keysNone).rect.collide e.rect) = true ∧
         gC3.player.lives = 1))) ∧
    ((gC3.update keysNone).game_state = WIN → (gC3.update keysNone).coins = []) := by
  have hhe : ∀ e ∈ gC3.enemies, e.rect.y + e.rect.h ≤ SCREEN_HEIGHT := by
    intro e hee
    rw [show gC3.enemies = [enemyC3] from rfl, List.mem_singleton] at hee
    subst hee
    decide
  have hhc : ∀ c ∈ gC3.coins, c.rect.y + c.rect.h ≤ SCREEN_HEIGHT := by
    intro c hcc
    rw [show gC3.coins = [coinC3] from rfl, List.mem_singleton] at hcc
    subst hcc
    decide
  have h := C3_win_characterization keysNone gC3 rfl (by decide) hhe hhc
  exact ⟨rfl, by decide, h.1, h.2.1⟩

/-- C2 (witness): the lives/game-over theorem applied at the concrete
playing state gC3 with one life. -/
theorem C2_lives_witness :
    gC3.game_state = PLAYING ∧ 1 ≤ gC3.player.lives ∧
    (0 ≤ (gC3.update keysNone).player.lives ∧
     ((gC3.update keysNone).game_state = GAME_OVER ↔
       (gC3.player.lives = 1 ∧ (gC3.update keysNone).player.lives = 0)) ∧
     ((gC3.update keysNone).game_state ≠ GAME_OVER →
       1 ≤ (gC3.update keysNone).player.lives) ∧
     (∀ e ∈ (gC3.update keysNone).enemies, e.rect.y + e.rect.h ≤ SCREEN_HEIGHT) ∧
     (∀ c ∈ (gC3.update keysNone).coins, c.rect.y + c.rect.h ≤ SCREEN_HEIGHT) ∧
     (∀ lvl : Int, ∀ e ∈ createLevelEnemies lvl, e.rect.y + e.rect.h ≤ SCREEN_HEIGHT) ∧
     (∀ lvl : Int, ∀ c ∈ createLevelCoins lvl, c.rect.y + c.rect.h ≤ SCREEN_HEIGHT)) := by
  have hhe : ∀ e ∈ gC3.enemies, e.rect.y + e.rect.h ≤ SCREEN_HEIGHT := by
    intro e hee
    rw [show gC3.enemies = [enemyC3] from rfl, List.mem_singleton] at hee
    subst hee
    decide
  have hhc : ∀ c ∈ gC3.coins, c.rect.y + c.rect.h ≤ SCREEN_HEIGHT := by
    intro c hcc
    rw [show gC3.coins = [coinC3] from rfl, List.mem_singleton] at hcc
    subst hcc
    decide
  exact ⟨rfl, by decide, C2_lives_and_game_over keysNone gC3 rfl (by decide) hhe hhc⟩

/-! ### C8 -/

/-- C8: on a playing tick the surviving coins are exactly those not
overlapping the player, each removed coin is gone from the coin set (so
the same coin can never be collected twice), the score increases by
exactly 10 per removed coin and never decreases, and the coin count
splits into survivors plus removals; over any run of ticks the quantity
score + 10·(coin count) is conserved and the score is monotone, so when
the coin set has been emptied the total score gained equals 10 times the
initial coin count. -/
theorem C8_score_accounting :
    (∀ (keys : Keys) (g : Game), g.game_state = PLAYING →
      ((g.update keys).coins =
         g.coins.filter (fun c => !((g.player.move keys).rect.collide c.rect)) ∧
       (g.update keys).score = g.score +
         10 * ((g.coins.filter
           (fun c => (g.player.move keys).rect.collide c.rect)).length : Int) ∧
       g.score ≤ (g.update keys).score ∧
       ((g.coins.length : Int) = ((g.update keys).coins.length : Int) +
         ((g.coins.filter
           (fun c => (g.player.move keys).rect.collide c.rect)).length : Int)) ∧
       (∀ c ∈ g.coins.filter (fun c => (g.player.move keys).rect.collide c.rect),
         c ∉ (g.update keys).coins))) ∧
    (∀ (g : Game) (ks : List Keys),
      g.score ≤ (g.run ks).score ∧
      (g.run ks).score + 10 * (((g.run ks).coins.length : Int)) =
        g.score + 10 * ((g.coins.length : Int))) ∧
    (∀ (g : Game) (ks : List Keys), (g.run ks).coins = [] →
      (g.run ks).score = g.score + 10 * ((g.coins.length : Int))) := by
  have hTick : ∀ (keys : Keys) (g : Game), g.game_state = PLAYING →
      ((g.update keys).coins =
         g.coins.filter (fun c => !((g.player.move keys).rect.collide c.rect)) ∧
       (g.update keys).score = g.score +
         10 * ((g.coins.filter
           (fun c => (g.player.move keys).rect.collide c.rect)).length : Int) ∧
       g.score ≤ (g.update keys).score ∧
       ((g.coins.length : Int) = ((g.update keys).coins.length : Int) +
         ((g.coins.filter
           (fun c => (g.player.move keys).rect.collide c.rect)).length : Int)) ∧
       (∀ c ∈ g.coins.filter (fun c => (g.player.move keys).rect.collide c.rect),
         c ∉ (g.update keys).coins)) := by
    intro keys g _hs
    have hup : g.update keys =
        (((g.spritesUpdate keys).landingStep).coinStep).enemyStep := rfl
    have hC2eq : ((g.spritesUpdate keys).landingStep).coins = g.coins := by
      rw [(landingStep_frame _).2.2.2.1, spritesUpdate_coins]
    have hRect2 : ((g.spritesUpdate keys).landingStep).player.rect =
        (g.player.move keys).rect := by
      rw [(landingStep_frame _).2.2.2.2.2.2.2, spritesUpdate_rect]
    have hCoins : (g.update keys).coins =
        g.coins.filter (fun c => !((g.player.move keys).rect.collide c.rect)) := by
      rw [hup, enemyStep_coins, coinStep_coins]
      simp only [hC2eq, hRect2]
    have hScore : (g.update keys).score = g.score +
        10 * ((g.coins.filter
          (fun c => (g.player.move keys).rect.collide c.rect)).length : Int) := by
      rw [hup, enemyStep_score, coinStep_score]
      simp only [hC2eq, hRect2]
      rw [(landingStep_frame _).2.1, spritesUpdate_score]
    have hPart : (g.coins.length : Int) = ((g.update keys).coins.length : Int) +
        ((g.coins.filter
          (fun c => (g.player.move keys).rect.collide c.rect)).length : Int) := by
      rw [hCoins]
      have hp := length_filter_partition
        (fun c => (g.player.move keys).rect.collide c.rect) g.coins
      omega
    refine ⟨hCoins, hScore, by rw [hScore]; omega, hPart, ?_⟩
    intro c hcm hmem
    rw [hCoins] at hmem
    have h1 := (List.mem_filter.mp hcm).2
    have h2 := (List.mem_filter.mp hmem).2
    simp at h1 h2
    simp [h1] at h2
  have hstep : ∀ (k : Keys) (g : Game),
      g.score ≤ (g.step k).score ∧
      (g.step k).score + 10 * (((g.step k).coins.length : Int)) =
        g.score + 10 * ((g.coins.length : Int)) := by
    intro k g
    unfold Game.step
    split
    · rename_i hpl
      obtain ⟨_, hScore, hMono, hPart, _⟩ := hTick k g hpl
      exact ⟨hMono, by omega⟩
    · exact ⟨le_refl _, rfl⟩
  have hrun : ∀ (ks : List Keys) (g : Game),
      g.score ≤ (g.run ks).score ∧
      (g.run ks).score + 10 * (((g.run ks).coins.length : Int)) =
        g.score + 10 * ((g.coins.length : Int)) := by
    intro ks
    induction ks with
    | nil => exact fun g => ⟨le_refl _, rfl⟩
    | cons k ks ih =>
        intro g
        have h1 := hstep k g
        have h2 := ih (g.step k)
        have hrcons : g.run (k :: ks) = (g.step k).run ks := rfl
        rw [hrcons]
        exact ⟨le_trans h1.1 h2.1, by omega⟩
  refine ⟨hTick, fun g ks => hrun ks g, fun g ks hnil => ?_⟩
  have h2 := (hrun ks g).2
  rw [hnil] at h2
  simp at h2
  omega

/-- C8 (witness): the accounting theorem applied at the concrete playing
state gC3, whose single coin is collected in one tick. -/
theorem C8_score_witness :
    gC3.game_state = PLAYING ∧
    (gC3.update keysNone).score = gC3.score +
      10 * ((gC3.coins.filter
        (fun c => (gC3.player.move keysNone).rect.collide c.rect)).length : Int) ∧
    gC3.score ≤ (gC3.update keysNone).score ∧
    (gC3.run [keysNone]).coins = [] ∧
    (gC3.run [keysNone]).score = gC3.score + 10 * ((gC3.coins.length : Int)) := by
  have hrunEq : gC3.run [keysNone] = gFinal := by
    show gC3.step keysNone = gFinal
    unfold Game.step
    rw [if_pos (show gC3.game_state = PLAYING from rfl), gC3_update]
  have h1 := C8_score_accounting.1 keysNone gC3 rfl
  have hnil : (gC3.run [keysNone]).coins = [] := by
    rw [hrunEq]
    rfl
  exact ⟨rfl, h1.2.1, h1.2.2.1, hnil, C8_score_accounting.2.2 gC3 [keysNone] hnil⟩

end PG
